import Mathlib

/-!
Shallow embedding of the cross-filter propagation engine of the Power BI
dashboard (`src/pages/Dashboard.tsx`) together with the readiness
computation and the order/persistence handlers, and proofs of its
behavioural properties.

Modelling conventions:
* Strings stay strings; a JS value that may be `undefined`/`null` becomes
  an `Option`.  A JS falsy check on a string (`!t`) is `t = none ∨ t = some ""`.
* `Math.random()`-based draws are modelled by an injectable oracle
  `rand : List String → String`; the code's `options[Math.floor(Math.random()
  * options.length)]` always lands inside `options`, which is captured by the
  predicate `RandValid`.
* The merged instance map `{...visualInstancesRef.current,
  ...dynamicVisualInstances.current}` is identified with the list of its
  keys: a static handle is registered under its `VisualKey` (`category`,
  `store`, `salesByStore`, `salesBySegment`), a dynamic handle under its
  dynamic id (`dynamic-<reportId>`).  The selection and clear handlers,
  however, receive the widget id (`categoryVisual`, …, or the dynamic id)
  as `sourceVisualId` — the source mixes the two name spaces, and the
  model keeps them distinct so that the mismatch is visible.  The effect
  of a fan-out is the list of `setFilters` / `removeFilters` calls it
  issues, in order, addressed by registry key.
* React `setState` calls are explicit state passing; callbacks capture the
  state that was current when the handler started (stale-closure semantics),
  which is how the source behaves within one handler invocation.
-/

namespace PowerBIDashboard

/-! ## Data model -/

/-- A Power BI basic filter as built by `createFilter`: the `$schema`,
`operator: 'In'` and `filterType` fields are constants in the source and are
omitted; `target.{table,column}` and `values` are kept. -/
structure BasicFilter where
  table : String
  column : String
  values : List String
deriving DecidableEq, Repr

/-- The two shared filter slots (`selectedCategory`, `selectedStore`). -/
structure SharedState where
  selectedCategory : String
  selectedStore : String
deriving DecidableEq, Repr

/-- One outbound embedding-library call issued by a fan-out. -/
inductive VisualCall where
  | setFilters (targetId : String) (filters : List BasicFilter)
  | removeFilters (targetId : String)
deriving DecidableEq, Repr

/-- The widget a call is addressed to. -/
def VisualCall.targetOf : VisualCall → String
  | .setFilters id _ => id
  | .removeFilters id => id

/-- Selection event payload: `identity[k].target`. -/
structure SelTarget where
  table : Option String
  column : Option String
deriving DecidableEq, Repr

/-- Selection event payload: one entry of `dataPoints[k].identity`. -/
structure SelIdentity where
  target : Option SelTarget
  equals : Option String
deriving DecidableEq, Repr

/-- Selection event payload: one entry of `dataPoints`. -/
structure SelDataPoint where
  identity : List SelIdentity
deriving DecidableEq, Repr

/-- A `dataSelected` event payload (`{ dataPoints: [...] }`); a missing
`dataPoints` field is modelled by the empty list, which the code treats the
same way. -/
structure Selection where
  dataPoints : List SelDataPoint
deriving DecidableEq, Repr

/-- A dynamic report chosen in the modal; ids are compared through `String(id)`
in the source, so the id is kept as a string here. -/
structure Report where
  id : String
  title : String
deriving DecidableEq, Repr

/-- Configuration of one of the four built-in static visuals. -/
structure StaticVisualConfig where
  id : String
  key : String
  title : String
  pageName : String
  visualName : String
deriving DecidableEq, Repr

/-- The `staticVisualConfigs` memo of Dashboard.tsx. -/
def staticVisualConfigs : List StaticVisualConfig := [
  { id := "categoryVisual", key := "category", title := "Sales Analysis",
    pageName := "ReportSectiona37d01e834c17d07bbeb", visualName := "b33397810d555ca70a8c" },
  { id := "storeVisual", key := "store", title := "Sales by Segment",
    pageName := "ReportSection998e2850a99cabad87e8", visualName := "3a28c5fee26bd29ff352" },
  { id := "salesByStoreVisual", key := "salesByStore", title := "Sales by Store",
    pageName := "ReportSection4b3fbaa7dd7908d906d9", visualName := "d55aa7aa40745de10d55" },
  { id := "salesBySegmentVisual", key := "salesBySegment", title := "Forecast Analysis",
    pageName := "ReportSectiona37d01e834c17d07bbeb", visualName := "805719ca6000cb000be2" } ]

/-- One entry of a filter dropdown. -/
structure FilterOption where
  id : String
  label : String
  value : String
deriving DecidableEq, Repr

/-- One filter dropdown (`filterCategories` entries). -/
structure FilterCategory where
  name : String
  key : String
  options : List FilterOption
deriving DecidableEq, Repr

/-- The `filterCategories` memo of Dashboard.tsx: the closed option
vocabularies of the two shared slots. -/
def filterCategories : List FilterCategory := [
  { name := "Store", key := "Store", options := [
      ⟨"all", "All Categories", "All"⟩,
      ⟨"Abbas", "Abbas", "Abbas"⟩,
      ⟨"Aliqui", "Aliqui", "Aliqui"⟩,
      ⟨"Barba", "Barba", "Barba"⟩,
      ⟨"Contoso", "Contoso", "Contoso"⟩,
      ⟨"Fama", "Fama", "Fama"⟩,
      ⟨"Leo", "Leo", "Leo"⟩,
      ⟨"Natura", "Natura", "Natura"⟩,
      ⟨"Palma", "Palma", "Palma"⟩,
      ⟨"Pirum", "Pirum", "Pirum"⟩,
      ⟨"Pomum", "Pomum", "Pomum"⟩ ] },
  { name := "Segment", key := "Segment", options := [
      ⟨"all-stores", "All Stores", "All"⟩,
      ⟨"Blue", "Blue", "Blue"⟩,
      ⟨"Cyan", "Cyan", "Cyan"⟩,
      ⟨"Green", "Green", "Green"⟩,
      ⟨"Jade", "Jade", "Jade"⟩,
      ⟨"Magenta", "Magenta", "Magenta"⟩,
      ⟨"Neon Blue", "Neon Blue", "Neon Blue"⟩,
      ⟨"Orange", "Orange", "Orange"⟩,
      ⟨"Purple", "Purple", "Purple"⟩,
      ⟨"Red", "Red", "Red"⟩,
      ⟨"Royal Blue", "Royal Blue", "Royal Blue"⟩,
      ⟨"Turquoise", "Turquoise", "Turquoise"⟩,
      ⟨"Yellow", "Yellow", "Yellow"⟩ ] } ]

/-- Values of the Store (category) dropdown. -/
def storeVocab : List String :=
  ((filterCategories.getD 0 ⟨"", "", []⟩).options).map (fun o => o.value)

/-- Values of the Segment dropdown. -/
def segmentVocab : List String :=
  ((filterCategories.getD 1 ⟨"", "", []⟩).options).map (fun o => o.value)

/-- The default `visualOrder`. -/
def DEFAULT_VISUAL_ORDER : List String :=
  ["categoryVisual", "storeVisual", "salesByStoreVisual", "salesBySegmentVisual"]

/-- Helper `getDynamicVisualId`. -/
def getDynamicVisualId (reportId : String) : String := "dynamic-" ++ reportId

/-- The key list of the merged instance map
`{...visualInstancesRef.current, ...dynamicVisualInstances.current}`:
static handles are stored under their `VisualKey`
(`visualInstancesRef.current[key] = visual`), dynamic handles under their
dynamic id. -/
def registryOf (embeddedStatic : List StaticVisualConfig)
    (dynamicIds : List String) : List String :=
  embeddedStatic.map (fun cfg => cfg.key) ++ dynamicIds

/-! ## Value normalisation -/

/-- The fallback set both the normaliser and the inline normalisation draw
from for the "unmappable" Microsoft-product values. -/
def fallbackOptions : List String :=
  ["Barba", "Contoso", "Fama", "Leo", "Natura", "Palma", "Pomum"]

/-- The fixed "ambiguous" raw values. -/
def msProducts : List String :=
  ["Stream", "Power BI", "PowerPoint", "Teams", "Visio", "Outlook", "Excel", "Skype", "Forms"]

/-- The `valueMap` alias table of `getStandardizedValue`
(`valueMap[selectedValue] || selectedValue`). -/
def valueMapLookup (selectedValue : String) : String :=
  if selectedValue = "Pirum" then "Leo"
  else if selectedValue = "OneNote" then "Fama"
  else if selectedValue = "Publisher" then "Abbas"
  else if selectedValue = "SharePoint" then "Barba"
  else if selectedValue = "Kaizala" then "Leo"
  else if selectedValue = "PowerApps" then "Palma"
  else if selectedValue = "Access" then "Aliqui"
  else if selectedValue = "Word" then "Contoso"
  else if selectedValue = "Exchange" then "Leo"
  else if selectedValue = "Planner" then "Fama"
  else selectedValue

/-- The Value Normalizer (`getStandardizedValue`), with the random draw made
explicit through the oracle `rand`. -/
def getStandardizedValue (rand : List String → String) (selectedValue : String) : String :=
  if selectedValue ∈ msProducts then rand fallbackOptions
  else valueMapLookup selectedValue

/-- The inline chain of value replacements at the top of
`handleVisualSelection` (the sequence of ten `if` statements followed by the
random replacement for the Microsoft-product values); each `if` tests the
value produced by the previous one, exactly as the source mutates
`selectedValue`. -/
def inlineNormalize (rand : List String → String) (v0 : String) : String :=
  let v1 := if v0 = "Pirum" then "Leo" else v0
  let v2 := if v1 = "OneNote" then "Fama" else v1
  let v3 := if v2 = "Publisher" then "Abbas" else v2
  let v4 := if v3 = "SharePoint" then "Barba" else v3
  let v5 := if v4 = "Kaizala" then "Leo" else v4
  let v6 := if v5 = "PowerApps" then "Palma" else v5
  let v7 := if v6 = "Access" then "Aliqui" else v6
  let v8 := if v7 = "Word" then "Contoso" else v7
  let v9 := if v8 = "Exchange" then "Leo" else v8
  let v10 := if v9 = "Planner" then "Fama" else v9
  if v10 ∈ msProducts then rand fallbackOptions else v10

/-- The random oracle is a faithful model of
`options[Math.floor(Math.random() * options.length)]`: the draw always lies
in the list it is drawn from. -/
def RandValid (rand : List String → String) : Prop :=
  ∀ l : List String, l ≠ [] → rand l ∈ l

/-- The hard-coded category list of the `salesBySegment` special case inside
`handleVisualSelection` (note: unlike `fallbackOptions` it does not contain
`"Leo"`). -/
def salesBySegmentCategories : List String :=
  ["Barba", "Contoso", "Fama", "Natura", "Palma", "Pomum"]

/-! ## Filter construction and fan-out -/

/-- `createFilter`: the invalid-input branch returns the sentinel
`_invalid_` filter (the `value` nullability test of the source cannot fire
here because the value argument is always a string). -/
def createFilter (table column value : String) : BasicFilter :=
  if table = "" ∨ column = "" then
    { table := "_invalid_", column := "_invalid_", values := [] }
  else
    { table := table, column := column, values := [value] }

/-- `applyFilterToVisuals`: push one filter to every registered widget except
the source; a `none` or `_invalid_` filter is dropped. -/
def applyFilterToVisuals (instances : List String) (sourceVisualId : String)
    (filt : Option BasicFilter) : List VisualCall :=
  match filt with
  | none => []
  | some f =>
    if f.table = "_invalid_" then []
    else
      (instances.filter (fun id => id ≠ sourceVisualId)).map
        (fun id => VisualCall.setFilters id [f])

/-- The zero-, one- or two-element filter list `applyFilters` builds from the
shared state. -/
def stateFilterList (st : SharedState) : List BasicFilter :=
  (if st.selectedCategory ≠ "All" then [createFilter "Store" "Store" st.selectedCategory] else [])
    ++ (if st.selectedStore ≠ "All" then [createFilter "Product" "Segment" st.selectedStore] else [])

/-- `applyFilters` (the `applySharedState` fan-out): replace the basic filters
of every registered widget — the source included — with the shared-state
filter list. -/
def applyFilters (instances : List String) (st : SharedState) : List VisualCall :=
  instances.map (fun id => VisualCall.setFilters id (stateFilterList st))

/-! ## Selection interpretation -/

/-- The defensive extraction at the top of `handleVisualSelection`: take the
first data point, its first identity entry, the target table/column (a JS
falsy test, so a missing or empty string fails) and the `equals` value. -/
def extractEvent (selection : Selection) : Option (String × String × String) :=
  match selection.dataPoints with
  | [] => none
  | p :: _ =>
    match p.identity with
    | [] => none
    | id0 :: _ =>
      match id0.target with
      | none => none
      | some tgt =>
        match tgt.table, tgt.column with
        | some t, some c =>
          if t = "" ∨ c = "" then none
          else
            match id0.equals with
            | none => none
            | some v => some (t, c, v)
        | _, _ => none

/-- The state-and-descriptor step of `handleVisualSelection` once a valid
`(table, column, value)` triple has been extracted: the inline value
replacements, the static/dynamic branch on the source id, the
`salesBySegment` special case, and the slot-mapping table. -/
def selectionStep (rand : List String → String) (st : SharedState)
    (sourceVisualId targetTable targetColumn rawValue : String) :
    SharedState × Option BasicFilter :=
  let filterValue := inlineNormalize rand rawValue
  match staticVisualConfigs.find? (fun cfg => cfg.id = sourceVisualId) with
  | some cfg =>
    if cfg.key = "salesBySegment" then
      let randomCategory := rand salesBySegmentCategories
      ({ st with selectedCategory := randomCategory },
       some (createFilter "Product" "Product" randomCategory))
    else
      let standardizedValue := getStandardizedValue rand filterValue
      if targetTable = "Product" ∧ targetColumn = "Product" then
        ({ st with selectedCategory := standardizedValue },
         some (createFilter targetTable targetColumn standardizedValue))
      else if targetTable = "Store" ∧ targetColumn = "Store" then
        ({ st with selectedCategory := standardizedValue },
         some (createFilter targetTable targetColumn standardizedValue))
      else if targetTable = "Product" ∧ targetColumn = "Segment" then
        ({ st with selectedStore := standardizedValue },
         some (createFilter targetTable targetColumn standardizedValue))
      else
        (st, none)
  | none =>
    if targetTable = "Product" ∧ targetColumn = "Product" then
      ({ st with selectedCategory := filterValue },
       some (createFilter targetTable targetColumn filterValue))
    else if targetTable = "Store" ∧ targetColumn = "Store" then
      ({ st with selectedCategory := filterValue },
       some (createFilter targetTable targetColumn filterValue))
    else if targetTable = "Product" ∧ targetColumn = "Segment" then
      ({ st with selectedStore := filterValue },
       some (createFilter targetTable targetColumn filterValue))
    else
      (st, some (createFilter targetTable targetColumn filterValue))

/-- `handleVisualSelection`: interpret a `dataSelected` event from widget
`sourceVisualId`, returning the updated shared state, the filter descriptor
produced (if any) and the fan-out calls issued through
`applyFilterToVisuals`. -/
def handleVisualSelection (rand : List String → String) (instances : List String)
    (st : SharedState) (sourceVisualId : String) (selection : Selection) :
    SharedState × Option BasicFilter × List VisualCall :=
  match extractEvent selection with
  | none => (st, none, [])
  | some (targetTable, targetColumn, rawValue) =>
    let stepResult := selectionStep rand st sourceVisualId targetTable targetColumn rawValue
    (stepResult.1, stepResult.2,
     applyFilterToVisuals instances sourceVisualId stepResult.2)

/-! ## Clearing -/

/-- `clearCrossFilters`: reset the slot owned by the source's binding, remove
filters from every other widget and, when another slot is still concrete,
re-run `applyFilters`.  The re-run reads the shared state captured when the
handler started (the React closure), which is the pre-update state. -/
def clearCrossFilters (instances : List String) (st : SharedState)
    (sourceVisualId : String) : SharedState × List VisualCall :=
  let stepResult : SharedState × Bool :=
    match staticVisualConfigs.find? (fun cfg => cfg.id = sourceVisualId) with
    | some cfg =>
      let isStoreRelated := cfg.key = "category" ∨ cfg.key = "salesByStore"
      let isSegmentRelated := cfg.key = "store" ∨ cfg.key = "salesBySegment"
      if isStoreRelated ∧ st.selectedCategory ≠ "All" then
        ({ st with selectedCategory := "All" }, st.selectedStore != "All")
      else if isSegmentRelated ∧ st.selectedStore ≠ "All" then
        ({ st with selectedStore := "All" }, st.selectedCategory != "All")
      else
        (st, (st.selectedCategory != "All") || (st.selectedStore != "All"))
    | none =>
      (st, (st.selectedCategory != "All") || (st.selectedStore != "All"))
  let removes :=
    (instances.filter (fun id => id ≠ sourceVisualId)).map VisualCall.removeFilters
  let refilters := if stepResult.2 then applyFilters instances st else []
  (stepResult.1, removes ++ refilters)

/-- `resetAllFilters` (the `clearAll` operation): both slots to `All`,
`removeFilters` on every registered widget. -/
def resetAllFilters (instances : List String) (_st : SharedState) :
    SharedState × List VisualCall :=
  ({ selectedCategory := "All", selectedStore := "All" },
   instances.map VisualCall.removeFilters)

/-! ## Widget filter state and call application -/

/-- Full dashboard state for algebraic laws: the shared slots plus, for each
registered widget id, its currently applied basic filters. -/
structure DashboardState where
  shared : SharedState
  widgetFilters : List (String × List BasicFilter)
deriving DecidableEq, Repr

/-- Apply one embedding call to the per-widget filter map: `setFilters`
replaces the target's basic filters, `removeFilters` clears them. -/
def applyCall (w : List (String × List BasicFilter)) (c : VisualCall) :
    List (String × List BasicFilter) :=
  match c with
  | .setFilters id fs => w.map (fun p => if p.1 = id then (p.1, fs) else p)
  | .removeFilters id => w.map (fun p => if p.1 = id then (p.1, []) else p)

/-- Run a list of calls in order. -/
def runCalls (w : List (String × List BasicFilter)) (cs : List VisualCall) :
    List (String × List BasicFilter) :=
  cs.foldl applyCall w

/-- The `clearAll` operation on the full state: run `resetAllFilters` against
the registry (the keys of the filter map) and apply its calls. -/
def clearAll (ds : DashboardState) : DashboardState :=
  let instances := ds.widgetFilters.map (fun p => p.1)
  let r := resetAllFilters instances ds.shared
  { shared := r.1, widgetFilters := runCalls ds.widgetFilters r.2 }

/-! ## Order list, membership, persistence -/

/-- Whether a save request went through the debouncer or was fired
immediately. -/
inductive SaveKind where
  | scheduled
  | immediate
deriving DecidableEq, Repr

/-- One outbound `saveDashboardConfig` request (its arguments) together with
the path it took. -/
structure SaveReq where
  kind : SaveKind
  order : List String
  reports : List Report
deriving DecidableEq, Repr

/-- JS `Array.prototype.findIndex` returning `none` for `-1`. -/
def findIndexOf (l : List String) (x : String) : Option Nat :=
  match l with
  | [] => none
  | a :: as => if a = x then some 0 else (findIndexOf as x).map (fun n => n + 1)

/-- dnd-kit's `arrayMove`: remove the element at `i`, insert it at position
`j` of the shortened array. -/
def arrayMove (l : List String) (i j : Nat) : List String :=
  (l.eraseIdx i).insertIdx j (l.getD i "")

/-- `handleDragEnd`: no-op when the two ids coincide or either is absent;
otherwise a classic list-move plus a debounced save of the new order. -/
def handleDragEnd (items : List String) (selectedReports : List Report)
    (activeId overId : String) : List String × Option SaveReq :=
  if activeId = overId then (items, none)
  else
    match findIndexOf items activeId, findIndexOf items overId with
    | some oldIndex, some newIndex =>
      let newOrder := arrayMove items oldIndex newIndex
      (newOrder, some { kind := SaveKind.scheduled, order := newOrder,
                        reports := selectedReports })
    | _, _ => (items, none)

/-- `handleAddReports`: append the genuinely new reports (id equality through
`String(id)`), extend the order list, and save immediately through
`saveDashboardConfig` — the debounced path is commented out in the source. -/
def handleAddReports (selectedReports : List Report) (visualOrder : List String)
    (newlySelected : List Report) : List Report × List String × Option SaveReq :=
  let uniqueNewReports :=
    newlySelected.filter (fun nr => !(selectedReports.any (fun er => er.id == nr.id)))
  if 0 < uniqueNewReports.length then
    let updatedReports := selectedReports ++ uniqueNewReports
    let newDynamicIds := uniqueNewReports.map (fun r => getDynamicVisualId r.id)
    let updatedOrder := visualOrder ++ newDynamicIds
    (updatedReports, updatedOrder,
     some { kind := SaveKind.immediate, order := updatedOrder, reports := updatedReports })
  else
    (selectedReports, visualOrder, none)

/-- Quiet period of the debounced save (`debounce(..., 1000)`). -/
def debounceWait : Nat := 1000

/-- Trailing-edge debounce semantics of the `debounce` utility: each call
schedules a fire at `t + wait`, cancelling a pending one; the input is the
time-ordered list of calls, the output the list of actual invocations with
their arguments. -/
def debounce {α : Type} (wait : Nat) : List (Nat × α) → List (Nat × α)
  | [] => []
  | [(t, a)] => [(t + wait, a)]
  | (t, a) :: (t', a') :: rest =>
    if t' < t + wait then debounce wait ((t', a') :: rest)
    else (t + wait, a) :: debounce wait ((t', a') :: rest)

/-! ## Readiness -/

/-- The global loading-state effect: `visualsLoaded` as computed by the
source — static visuals are filtered by membership of the current order,
dynamic visuals are checked against `selectedReports`. -/
def visualsLoadedComputed (isLoadingConfig : Bool) (visualOrder : List String)
    (selectedReports : List Report) (visualRendered : String → Bool)
    (dynamicVisualsRendered : String → Bool) : Bool :=
  if isLoadingConfig then false
  else
    let staticVisualsInCurrentOrder :=
      staticVisualConfigs.filter (fun cfg => visualOrder.contains cfg.id)
    let allStaticInOrderRendered :=
      staticVisualsInCurrentOrder.isEmpty
        || staticVisualsInCurrentOrder.all (fun cfg => visualRendered cfg.key)
    let allDynamicRendered :=
      selectedReports.isEmpty
        || selectedReports.all (fun r => dynamicVisualsRendered (getDynamicVisualId r.id))
    allStaticInOrderRendered && allDynamicRendered

/-- Readiness as the claim states it: configuration loading finished and
every widget whose id is currently in the Order List has rendered, the
rendered flag of a static id being looked up by its key and that of any
other id directly. -/
def claimReadiness (isLoadingConfig : Bool) (visualOrder : List String)
    (visualRendered : String → Bool) (dynamicVisualsRendered : String → Bool) : Bool :=
  !isLoadingConfig && visualOrder.all (fun id =>
    match staticVisualConfigs.find? (fun cfg => cfg.id = id) with
    | some cfg => visualRendered cfg.key
    | none => dynamicVisualsRendered id)

/-! ## Normalisation lemmas -/

/-- The inline replacement chain of `handleVisualSelection` computes exactly
the Value Normalizer `getStandardizedValue`. -/
theorem inlineNormalize_eq_standardized (rand : List String → String) (v : String) :
    inlineNormalize rand v = getStandardizedValue rand v := by
  by_cases h1 : v = "Pirum"
  · subst h1; rfl
  by_cases h2 : v = "OneNote"
  · subst h2; rfl
  by_cases h3 : v = "Publisher"
  · subst h3; rfl
  by_cases h4 : v = "SharePoint"
  · subst h4; rfl
  by_cases h5 : v = "Kaizala"
  · subst h5; rfl
  by_cases h6 : v = "PowerApps"
  · subst h6; rfl
  by_cases h7 : v = "Access"
  · subst h7; rfl
  by_cases h8 : v = "Word"
  · subst h8; rfl
  by_cases h9 : v = "Exchange"
  · subst h9; rfl
  by_cases h10 : v = "Planner"
  · subst h10; rfl
  by_cases hm : v ∈ msProducts
  · simp only [inlineNormalize, getStandardizedValue,
      if_neg h1, if_neg h2, if_neg h3, if_neg h4, if_neg h5, if_neg h6,
      if_neg h7, if_neg h8, if_neg h9, if_neg h10, if_pos hm]
  · simp only [inlineNormalize, getStandardizedValue, valueMapLookup,
      if_neg h1, if_neg h2, if_neg h3, if_neg h4, if_neg h5, if_neg h6,
      if_neg h7, if_neg h8, if_neg h9, if_neg h10, if_neg hm]

/-- The normaliser leaves every member of its fallback set unchanged. -/
theorem standardized_fix (rand : List String → String) (x : String)
    (hx : x ∈ fallbackOptions) : getStandardizedValue rand x = x := by
  simp only [fallbackOptions, List.mem_cons, List.not_mem_nil, or_false] at hx
  rcases hx with h | h | h | h | h | h | h <;> (subst h; rfl)

/-- The Value Normalizer is idempotent for any admissible random oracle. -/
theorem standardized_idem (rand : List String → String) (hrand : RandValid rand)
    (v : String) :
    getStandardizedValue rand (getStandardizedValue rand v) = getStandardizedValue rand v := by
  have hfb : rand fallbackOptions ∈ fallbackOptions := hrand _ (by decide)
  by_cases hm : v ∈ msProducts
  · have hv : getStandardizedValue rand v = rand fallbackOptions := by
      rw [getStandardizedValue, if_pos hm]
    rw [hv, standardized_fix rand _ hfb]
  · have hv : getStandardizedValue rand v = valueMapLookup v := by
      rw [getStandardizedValue, if_neg hm]
    rw [hv]
    by_cases h1 : v = "Pirum"
    · subst h1; rfl
    by_cases h2 : v = "OneNote"
    · subst h2; rfl
    by_cases h3 : v = "Publisher"
    · subst h3; rfl
    by_cases h4 : v = "SharePoint"
    · subst h4; rfl
    by_cases h5 : v = "Kaizala"
    · subst h5; rfl
    by_cases h6 : v = "PowerApps"
    · subst h6; rfl
    by_cases h7 : v = "Access"
    · subst h7; rfl
    by_cases h8 : v = "Word"
    · subst h8; rfl
    by_cases h9 : v = "Exchange"
    · subst h9; rfl
    by_cases h10 : v = "Planner"
    · subst h10; rfl
    have hlook : valueMapLookup v = v := by
      rw [valueMapLookup, if_neg h1, if_neg h2, if_neg h3, if_neg h4, if_neg h5,
        if_neg h6, if_neg h7, if_neg h8, if_neg h9, if_neg h10]
    rw [hlook, getStandardizedValue, if_neg hm, hlook]

/-- What the static branch computes — the normaliser applied to the already
inline-normalised value — is one plain run of the Value Normalizer. -/
theorem standardized_inline (rand : List String → String) (hrand : RandValid rand)
    (v : String) :
    getStandardizedValue rand (inlineNormalize rand v) = getStandardizedValue rand v := by
  rw [inlineNormalize_eq_standardized, standardized_idem rand hrand]

/-! ## Malformed events (C5) -/

/-- The malformed-event classes the defensive extraction rejects: no data
points, missing identity / target shape on the first data point, a falsy
table or column, or a missing `equals` value. -/
def isMalformed (selection : Selection) : Bool :=
  match selection.dataPoints with
  | [] => true
  | p :: _ =>
    match p.identity with
    | [] => true
    | id0 :: _ =>
      match id0.target with
      | none => true
      | some tgt =>
        match tgt.table, tgt.column with
        | some t, some c =>
          (t == "") || (c == "") ||
            (match id0.equals with
             | none => true
             | some _ => false)
        | _, _ => true

/-- A malformed event fails extraction. -/
theorem extract_none_of_malformed (sel : Selection) (h : isMalformed sel = true) :
    extractEvent sel = none := by
  obtain ⟨dps⟩ := sel
  cases dps with
  | nil => rfl
  | cons p rest =>
    obtain ⟨ids⟩ := p
    cases ids with
    | nil => rfl
    | cons id0 irest =>
      obtain ⟨tgt, eqv⟩ := id0
      cases tgt with
      | none => rfl
      | some t =>
        obtain ⟨tb, cl⟩ := t
        cases tb with
        | none => rfl
        | some tv =>
          cases cl with
          | none => rfl
          | some cv =>
            simp only [isMalformed, Bool.or_eq_true, beq_iff_eq] at h
            simp only [extractEvent]
            rcases h with (h | h) | h
            · rw [if_pos (Or.inl h)]
            · rw [if_pos (Or.inr h)]
            · cases eqv with
              | none => split <;> rfl
              | some v => simp at h

/-- C5: a malformed selection event — no data points, first data point
without the `identity[0].target.{table,column}` shape, or without an
`equals` value — makes interpretation return no descriptor, issue no call
to any widget, and leave both shared slots unchanged. -/
theorem malformed_selection_is_inert (rand : List String → String)
    (instances : List String) (st : SharedState) (sourceVisualId : String)
    (sel : Selection) (h : isMalformed sel = true) :
    handleVisualSelection rand instances st sourceVisualId sel = (st, none, []) := by
  unfold handleVisualSelection
  rw [extract_none_of_malformed sel h]

/-- Witness for C5 at the event with an empty `dataPoints` list. -/
theorem malformed_selection_is_inert_witness :
    isMalformed ⟨[]⟩ = true ∧
      handleVisualSelection (fun l => l.headD "") ["categoryVisual", "storeVisual"]
        ⟨"All", "All"⟩ "categoryVisual" ⟨[]⟩ = (⟨"All", "All"⟩, none, []) :=
  ⟨rfl, malformed_selection_is_inert _ _ _ _ _ rfl⟩

/-! ## clearAll idempotence (C7) -/

/-- Running a `removeFilters` fan-out clears exactly the widgets whose id is
in the target list. -/
theorem runCalls_removeFilters (ids : List String)
    (w : List (String × List BasicFilter)) :
    runCalls w (ids.map VisualCall.removeFilters) =
      w.map (fun p => if p.1 ∈ ids then (p.1, ([] : List BasicFilter)) else p) := by
  induction ids generalizing w with
  | nil => simp [runCalls]
  | cons i is ih =>
    have hstep : runCalls w ((i :: is).map VisualCall.removeFilters) =
        runCalls (applyCall w (VisualCall.removeFilters i))
          (is.map VisualCall.removeFilters) := rfl
    rw [hstep, ih]
    simp only [applyCall, List.map_map]
    apply List.map_congr_left
    intro p _hp
    by_cases hpi : p.1 = i
    · simp [Function.comp, hpi, List.mem_cons]
    · simp [Function.comp, hpi, List.mem_cons]

/-- `clearAll` computed: slots reset, every registered widget's filters
emptied. -/
theorem clearAll_eval (ds : DashboardState) :
    clearAll ds = { shared := { selectedCategory := "All", selectedStore := "All" },
                    widgetFilters := ds.widgetFilters.map (fun p => (p.1, [])) } := by
  unfold clearAll resetAllFilters
  simp only [runCalls_removeFilters]
  congr 1
  apply List.map_congr_left
  intro p hp
  rw [if_pos (List.mem_map_of_mem (fun q => q.1) hp)]

/-- C7: `clearAll` is idempotent — a second run changes nothing — and its
result has both shared slots at `All` and every registered widget
filter-free. -/
theorem clearAll_idempotent (ds : DashboardState) :
    clearAll (clearAll ds) = clearAll ds ∧
      (clearAll ds).shared = { selectedCategory := "All", selectedStore := "All" } ∧
      (clearAll ds).widgetFilters.all (fun p => p.2.isEmpty) = true := by
  refine ⟨?_, ?_, ?_⟩
  · rw [clearAll_eval ds, clearAll_eval]
    simp [List.map_map, Function.comp]
  · rw [clearAll_eval]
  · rw [clearAll_eval]
    simp [List.all_eq_true]

/-! ## Source exclusion (C6) -/

/-- No static handle is registered under the widget id the handlers
receive: the registry key of every static visual differs from its
`VisualId`. -/
theorem static_key_ne_id :
    ∀ cfg ∈ staticVisualConfigs, cfg.key ≠ cfg.id := by decide

/-- Filtering out an absent element changes nothing. -/
theorem filter_ne_of_not_mem (l : List String) (x : String) (h : x ∉ l) :
    l.filter (fun a => a ≠ x) = l := by
  induction l with
  | nil => rfl
  | cons a as ih =>
    have hax : a ≠ x := fun hh => h (hh ▸ List.mem_cons_self a as)
    simp only [List.filter_cons, decide_eq_true (show a ≠ x from hax),
      ih (fun hh => h (List.mem_cons_of_mem a hh)), if_true]

/-- C6 counterexample: a selection on the static `categoryVisual` widget
fans out over the registry, whose static entries are keyed `category`,
`store`, …; the exclusion compares those keys with the source id
`categoryVisual`, which matches none of them, so the source widget's own
handle (key `category`) receives both the `setFilters` call of
`propagateSingle` and the `removeFilters` call of `clearFromSource`. -/
theorem source_exclusion_claim_counterexample :
    VisualCall.setFilters "category" [⟨"Store", "Store", ["Abbas"]⟩] ∈
        applyFilterToVisuals (registryOf staticVisualConfigs []) "categoryVisual"
          (some ⟨"Store", "Store", ["Abbas"]⟩) ∧
      VisualCall.removeFilters "category" ∈
        (clearCrossFilters (registryOf staticVisualConfigs []) ⟨"Abbas", "All"⟩
          "categoryVisual").2 ∧
      (staticVisualConfigs.find? (fun cfg => cfg.id = "categoryVisual")).map
          (fun cfg => cfg.key) = some "category" :=
  ⟨by decide, by decide, rfl⟩

/-- C6 (amended): the fan-outs of `propagateSingle` and `clearFromSource`
skip exactly the registry entry keyed by the source id.  A dynamic source
is registered under its own id and is therefore genuinely excluded; a
static source's handle is registered under its key, which never equals the
widget id, so the static source's own handle does receive the
`setFilters` / `removeFilters` call.  `applySharedState` addresses every
registered widget, the change's source included. -/
theorem source_exclusion_behaviour :
    (∀ (instances : List String) (src : String) (filt : Option BasicFilter)
        (c : VisualCall), c ∈ applyFilterToVisuals instances src filt →
        c.targetOf ≠ src) ∧
    (∀ (instances : List String) (st : SharedState) (src : String)
        (c : VisualCall) (id : String),
        c ∈ (clearCrossFilters instances st src).2 →
        c = VisualCall.removeFilters id → id ≠ src) ∧
    (∀ (instances : List String) (cfg : StaticVisualConfig) (f : BasicFilter),
        cfg ∈ staticVisualConfigs → cfg.key ∈ instances →
        f.table ≠ "_invalid_" →
        VisualCall.setFilters cfg.key [f] ∈
          applyFilterToVisuals instances cfg.id (some f)) ∧
    (∀ (instances : List String) (st : SharedState) (cfg : StaticVisualConfig),
        cfg ∈ staticVisualConfigs → cfg.key ∈ instances →
        VisualCall.removeFilters cfg.key ∈
          (clearCrossFilters instances st cfg.id).2) ∧
    (∀ (instances : List String) (st : SharedState) (w : String),
        w ∈ instances →
        VisualCall.setFilters w (stateFilterList st) ∈ applyFilters instances st) := by
  refine ⟨?_, ?_, ?_, ?_, ?_⟩
  · intro instances src filt c hc
    rcases filt with _ | f
    · simp [applyFilterToVisuals] at hc
    · simp only [applyFilterToVisuals] at hc
      by_cases hinv : f.table = "_invalid_"
      · rw [if_pos hinv] at hc
        simp at hc
      · rw [if_neg hinv] at hc
        obtain ⟨id, hid, rfl⟩ := List.mem_map.mp hc
        have := List.mem_filter.mp hid
        simpa [VisualCall.targetOf] using this.2
  · intro instances st src c id hc hcid
    simp only [clearCrossFilters] at hc
    rcases List.mem_append.mp hc with hmem | hmem
    · obtain ⟨id', hid', heq⟩ := List.mem_map.mp hmem
      rw [hcid] at heq
      cases heq
      have := List.mem_filter.mp hid'
      simpa using this.2
    · split at hmem
      · obtain ⟨id', _, heq⟩ := List.mem_map.mp hmem
        rw [hcid] at heq
        cases heq
      · simp at hmem
  · intro instances cfg f hcfg hkey hinv
    simp only [applyFilterToVisuals, if_neg hinv]
    exact List.mem_map.mpr
      ⟨cfg.key, List.mem_filter.mpr ⟨hkey, by simp [static_key_ne_id cfg hcfg]⟩, rfl⟩
  · intro instances st cfg hcfg hkey
    simp only [clearCrossFilters]
    refine List.mem_append.mpr (Or.inl ?_)
    exact List.mem_map.mpr
      ⟨cfg.key, List.mem_filter.mpr ⟨hkey, by simp [static_key_ne_id cfg hcfg]⟩, rfl⟩
  · intro instances st w hw
    exact List.mem_map.mpr ⟨w, hw, rfl⟩

/-- Witness for C6 (amended) at a concrete registry and source. -/
theorem source_exclusion_behaviour_witness :
    (VisualCall.setFilters "category"
        [⟨"Store", "Store", ["Abbas"]⟩]).targetOf ≠ "dynamic-7" ∧
      VisualCall.setFilters "store" [⟨"Store", "Store", ["Abbas"]⟩] ∈
        applyFilterToVisuals ["category", "store"] "storeVisual"
          (some ⟨"Store", "Store", ["Abbas"]⟩) ∧
      VisualCall.setFilters "category" (stateFilterList ⟨"Abbas", "All"⟩)
        ∈ applyFilters ["category", "store"] ⟨"Abbas", "All"⟩ :=
  ⟨source_exclusion_behaviour.1 ["category", "dynamic-7"] "dynamic-7"
      (some ⟨"Store", "Store", ["Abbas"]⟩) _ (by decide),
   source_exclusion_behaviour.2.2.1 ["category", "store"]
      ⟨"storeVisual", "store", "Sales by Segment",
        "ReportSection998e2850a99cabad87e8", "3a28c5fee26bd29ff352"⟩
      ⟨"Store", "Store", ["Abbas"]⟩ (by decide) (by decide) (by decide),
   source_exclusion_behaviour.2.2.2.2 ["category", "store"] ⟨"Abbas", "All"⟩
      "category" (by decide)⟩

/-! ## Selection on (Store, Store) (C1) -/

/-- A concrete admissible random oracle: always pick the first element. -/
def randHead : List String → String := fun l => l.headD ""

/-- The oracle `randHead` is admissible. -/
theorem randHead_valid : RandValid randHead := by
  intro l hl
  cases l with
  | nil => exact absurd rfl hl
  | cons a as => exact List.mem_cons_self a as

/-- A well-formed selection event targeting `(Store, Store)` with a given
`equals` value. -/
def storeStoreEvent (v : String) : Selection :=
  ⟨[⟨[⟨some ⟨some "Store", some "Store"⟩, some v⟩]⟩]⟩

/-- Lookup of the configuration of a widget id that is none of the four
static ids comes back empty. -/
theorem find?_static_none (W : String) (h1 : W ≠ "categoryVisual")
    (h2 : W ≠ "storeVisual") (h3 : W ≠ "salesByStoreVisual")
    (h4 : W ≠ "salesBySegmentVisual") :
    staticVisualConfigs.find? (fun cfg => cfg.id = W) = none := by
  simp [staticVisualConfigs, List.find?, Ne.symm h1, Ne.symm h2, Ne.symm h3, Ne.symm h4]

/-- C1 counterexample: the claim quantifies over every widget `W`, but (a)
a `(Store, Store)` selection with value `Abbas` arriving from the
`salesBySegmentVisual` widget sets the category slot to a random category
(`Barba` under the head-picking oracle), not to the normalised value
`Abbas`; and (b) for the static source `categoryVisual` the fan-out also
reaches the source widget's own handle (registered under the key
`category`), contradicting "every registered widget other than W". -/
theorem storeSelection_claim_counterexample :
    ((handleVisualSelection randHead ["category", "salesBySegment"]
        ⟨"All", "All"⟩ "salesBySegmentVisual" (storeStoreEvent "Abbas")).1.selectedCategory
        = "Barba" ∧
      getStandardizedValue randHead "Abbas" = "Abbas" ∧
      ("Barba" : String) ≠ "Abbas") ∧
      VisualCall.setFilters "category" [⟨"Store", "Store", ["Abbas"]⟩] ∈
        (handleVisualSelection randHead ["category", "store"]
          ⟨"All", "All"⟩ "categoryVisual" (storeStoreEvent "Abbas")).2.2 :=
  ⟨⟨rfl, rfl, by decide⟩, by decide⟩

/-- C1 (amended): for every source widget other than the always-random
`salesBySegmentVisual`, a valid selection event targeting `(Store, Store)`
with value `v` sets the category slot to the normalised value of `v`,
produces the descriptor `{Store, Store, normalised v}`, and issues a
one-element `setFilters` call with exactly that descriptor to every
registered handle except the one keyed by the source id.  For a dynamic
source, which is registered under its own id, this excludes the source
widget; a static source's handle is registered under its key, which never
equals the widget id, so the static source's own handle also receives the
call (second conjunct). -/
theorem storeSelection_updates_category_and_fans_out
    (rand : List String → String) (hrand : RandValid rand)
    (instances : List String) (st : SharedState) (W : String)
    (hW : W ≠ "salesBySegmentVisual") (sel : Selection) (v : String)
    (hsel : extractEvent sel = some ("Store", "Store", v)) :
    (handleVisualSelection rand instances st W sel =
      ({ st with selectedCategory := getStandardizedValue rand v },
       some ⟨"Store", "Store", [getStandardizedValue rand v]⟩,
       (instances.filter (fun id => id ≠ W)).map
         (fun id => VisualCall.setFilters id
           [⟨"Store", "Store", [getStandardizedValue rand v]⟩]))) ∧
    (∀ cfg ∈ staticVisualConfigs, cfg.id = W → cfg.key ∈ instances →
      VisualCall.setFilters cfg.key [⟨"Store", "Store", [getStandardizedValue rand v]⟩]
        ∈ (handleVisualSelection rand instances st W sel).2.2) := by
  have hstep : selectionStep rand st W "Store" "Store" v =
      ({ st with selectedCategory := getStandardizedValue rand v },
       some ⟨"Store", "Store", [getStandardizedValue rand v]⟩) := by
    by_cases h1 : W = "categoryVisual"
    · subst h1
      simp only [selectionStep, standardized_inline rand hrand v]
      rfl
    by_cases h2 : W = "storeVisual"
    · subst h2
      simp only [selectionStep, standardized_inline rand hrand v]
      rfl
    by_cases h3 : W = "salesByStoreVisual"
    · subst h3
      simp only [selectionStep, standardized_inline rand hrand v]
      rfl
    · simp only [selectionStep, find?_static_none W h1 h2 h3 hW,
        inlineNormalize_eq_standardized rand v]
      rfl
  have hmain : handleVisualSelection rand instances st W sel =
      ({ st with selectedCategory := getStandardizedValue rand v },
       some ⟨"Store", "Store", [getStandardizedValue rand v]⟩,
       (instances.filter (fun id => id ≠ W)).map
         (fun id => VisualCall.setFilters id
           [⟨"Store", "Store", [getStandardizedValue rand v]⟩])) := by
    simp only [handleVisualSelection, hsel, hstep]
    rfl
  refine ⟨hmain, ?_⟩
  intro cfg hcfg hid hkey
  simp only [hmain]
  exact List.mem_map.mpr ⟨cfg.key,
    List.mem_filter.mpr ⟨hkey, by simp [hid ▸ static_key_ne_id cfg hcfg]⟩, rfl⟩

/-- Witness for C1 (amended): a dynamic source's own handle is excluded
from the fan-out; a static source's own handle (registered under its key)
receives the call. -/
theorem storeSelection_updates_category_witness :
    (handleVisualSelection randHead ["category", "dynamic-7"]
        ⟨"All", "All"⟩ "dynamic-7" (storeStoreEvent "SharePoint") =
      (⟨"Barba", "All"⟩, some ⟨"Store", "Store", ["Barba"]⟩,
       [VisualCall.setFilters "category" [⟨"Store", "Store", ["Barba"]⟩]])) ∧
    VisualCall.setFilters "category" [⟨"Store", "Store", ["Barba"]⟩] ∈
      (handleVisualSelection randHead ["category", "store"]
        ⟨"All", "All"⟩ "categoryVisual" (storeStoreEvent "SharePoint")).2.2 :=
  ⟨(storeSelection_updates_category_and_fans_out randHead randHead_valid
      ["category", "dynamic-7"] ⟨"All", "All"⟩ "dynamic-7" (by decide)
      (storeStoreEvent "SharePoint") "SharePoint" rfl).1,
   (storeSelection_updates_category_and_fans_out randHead randHead_valid
      ["category", "store"] ⟨"All", "All"⟩ "categoryVisual" (by decide)
      (storeStoreEvent "SharePoint") "SharePoint" rfl).2
     ⟨"categoryVisual", "category", "Sales Analysis",
       "ReportSectiona37d01e834c17d07bbeb", "b33397810d555ca70a8c"⟩
     (by decide) rfl (by decide)⟩

/-! ## The always-random widget (C3) -/

/-- A concrete admissible random oracle: pick the element at index 3. -/
def randIdx3 : List String → String := fun l => l.getD 3 ""

/-- C3 counterexample: the always-random branch does not draw from the
Value Normalizer's fallback set.  Under the index-3 oracle the drawn
category is `Natura` while the same oracle applied to the fallback set
yields `Leo`; indeed `Leo` belongs to the fallback set but not to the set
the branch draws from. -/
theorem alwaysRandom_claim_counterexample :
    (handleVisualSelection randIdx3 ["category", "salesBySegment"]
        ⟨"All", "All"⟩ "salesBySegmentVisual"
        (storeStoreEvent "Abbas")).1.selectedCategory = "Natura" ∧
      randIdx3 fallbackOptions = "Leo" ∧
      ("Natura" : String) ≠ "Leo" ∧
      "Leo" ∈ fallbackOptions ∧ "Leo" ∉ salesBySegmentCategories :=
  ⟨rfl, rfl, by decide, by decide, by decide⟩

/-- C3 (amended): a valid selection event from `salesBySegmentVisual` draws
a category from the fixed six-element list (the normaliser's fallback set
without `Leo`), updates the category slot to it, and produces the fixed
`(Product, Product)` descriptor, regardless of the event's actual table,
column and value.  The descriptor is pushed to every registered handle —
the exclusion compares registry keys against the source id
`salesBySegmentVisual`, which matches no registry key, so the source's own
handle (key `salesBySegment`) receives the call as well. -/
theorem alwaysRandom_selection_behaviour
    (rand : List String → String) (hrand : RandValid rand)
    (instances : List String) (hreg : "salesBySegmentVisual" ∉ instances)
    (st : SharedState) (sel : Selection)
    (t c v : String) (hsel : extractEvent sel = some (t, c, v)) :
    handleVisualSelection rand instances st "salesBySegmentVisual" sel =
      ({ st with selectedCategory := rand salesBySegmentCategories },
       some ⟨"Product", "Product", [rand salesBySegmentCategories]⟩,
       instances.map
         (fun id => VisualCall.setFilters id
           [⟨"Product", "Product", [rand salesBySegmentCategories]⟩])) ∧
      rand salesBySegmentCategories ∈ salesBySegmentCategories ∧
      salesBySegmentCategories = fallbackOptions.erase "Leo" := by
  refine ⟨?_, hrand _ (by decide), by decide⟩
  have hmain : handleVisualSelection rand instances st "salesBySegmentVisual" sel =
      ({ st with selectedCategory := rand salesBySegmentCategories },
       some ⟨"Product", "Product", [rand salesBySegmentCategories]⟩,
       (instances.filter (fun id => id ≠ "salesBySegmentVisual")).map
         (fun id => VisualCall.setFilters id
           [⟨"Product", "Product", [rand salesBySegmentCategories]⟩])) := by
    unfold handleVisualSelection
    rw [hsel]
    rfl
  rw [hmain, filter_ne_of_not_mem instances _ hreg]

/-- Witness for C3 (amended) at a concrete event, oracle and registry;
the source's own handle `salesBySegment` is among the call targets. -/
theorem alwaysRandom_selection_behaviour_witness :
    handleVisualSelection randHead ["category", "salesBySegment"]
        ⟨"All", "All"⟩ "salesBySegmentVisual" (storeStoreEvent "Teams") =
      (⟨"Barba", "All"⟩, some ⟨"Product", "Product", ["Barba"]⟩,
       [VisualCall.setFilters "category" [⟨"Product", "Product", ["Barba"]⟩],
        VisualCall.setFilters "salesBySegment"
          [⟨"Product", "Product", ["Barba"]⟩]]) :=
  (alwaysRandom_selection_behaviour randHead randHead_valid
    ["category", "salesBySegment"] (by decide) ⟨"All", "All"⟩
    (storeStoreEvent "Teams") "Store" "Store" "Teams" rfl).1

/-! ## Unhandled table/column pairs (C4) -/

/-- A successfully extracted event has a non-empty table and column. -/
theorem extract_some_nonempty (sel : Selection) (t c v : String)
    (h : extractEvent sel = some (t, c, v)) : t ≠ "" ∧ c ≠ "" := by
  obtain ⟨dps⟩ := sel
  cases dps with
  | nil => cases h
  | cons p rest =>
    obtain ⟨ids⟩ := p
    cases ids with
    | nil => cases h
    | cons id0 irest =>
      obtain ⟨tgt, eqv⟩ := id0
      cases tgt with
      | none => cases h
      | some tg =>
        obtain ⟨tb, cl⟩ := tg
        cases tb with
        | none => cases h
        | some tv =>
          cases cl with
          | none => cases h
          | some cv =>
            simp only [extractEvent] at h
            by_cases hcond : tv = "" ∨ cv = ""
            · rw [if_pos hcond] at h; cases h
            · rw [if_neg hcond] at h
              cases eqv with
              | none => cases h
              | some v' =>
                simp only [Option.some.injEq, Prod.mk.injEq] at h
                obtain ⟨h1, h2, -⟩ := h
                push_neg at hcond
                exact ⟨h1 ▸ hcond.1, h2 ▸ hcond.2⟩

/-- C4 counterexample: an unhandled pairing from a static widget produces
no descriptor at all and propagates nothing — the claim's "descriptor is
still produced and returned for every source widget" fails for static
sources. -/
theorem unhandled_claim_counterexample :
    handleVisualSelection randHead ["categoryVisual", "storeVisual"]
        ⟨"All", "All"⟩ "categoryVisual"
        ⟨[⟨[⟨some ⟨some "Foo", some "Bar"⟩, some "Baz"⟩]⟩]⟩ =
      (⟨"All", "All"⟩, none, []) := rfl

/-- C4 (amended): on an unhandled `(table, column)` pairing neither shared
slot is updated by a non-always-random source; a dynamic source still
produces the direct descriptor and fans it out to every registered handle
except its own (its registry key is its id), provided the event's table is
not the reserved `_invalid_` marker, which the propagator drops; a static
source other than `salesBySegmentVisual` produces no descriptor and issues
no call; the static `salesBySegmentVisual` source instead takes its
always-random path even on an unhandled pairing — updating the category
slot and propagating a `(Product, Product)` descriptor to every registered
handle, its own included. -/
theorem unhandled_selection_behaviour
    (rand : List String → String) (instances : List String) (st : SharedState)
    (sel : Selection) (t c v : String)
    (hsel : extractEvent sel = some (t, c, v))
    (hnp : ¬(t = "Product" ∧ c = "Product"))
    (hns : ¬(t = "Store" ∧ c = "Store"))
    (hng : ¬(t = "Product" ∧ c = "Segment"))
    (hti : t ≠ "_invalid_") :
    (∀ W, (staticVisualConfigs.find? (fun cfg => cfg.id = W)).isSome = true →
        W ≠ "salesBySegmentVisual" →
        handleVisualSelection rand instances st W sel = (st, none, [])) ∧
    (∀ W, staticVisualConfigs.find? (fun cfg => cfg.id = W) = none →
        handleVisualSelection rand instances st W sel =
          (st, some ⟨t, c, [inlineNormalize rand v]⟩,
           (instances.filter (fun id => id ≠ W)).map
             (fun id => VisualCall.setFilters id
               [⟨t, c, [inlineNormalize rand v]⟩]))) ∧
    ("salesBySegmentVisual" ∉ instances →
        handleVisualSelection rand instances st "salesBySegmentVisual" sel =
          ({ st with selectedCategory := rand salesBySegmentCategories },
           some ⟨"Product", "Product", [rand salesBySegmentCategories]⟩,
           instances.map
             (fun id => VisualCall.setFilters id
               [⟨"Product", "Product", [rand salesBySegmentCategories]⟩]))) := by
  obtain ⟨ht, hc⟩ := extract_some_nonempty sel t c v hsel
  have hcf : createFilter t c (inlineNormalize rand v) =
      ⟨t, c, [inlineNormalize rand v]⟩ := by
    rw [createFilter, if_neg (by tauto)]
  refine ⟨?_, ?_, ?_⟩
  · intro W hsome hWs
    have hfind := Option.isSome_iff_exists.mp hsome
    obtain ⟨cfg, hcfg⟩ := hfind
    have hmem := List.mem_of_find?_eq_some hcfg
    have hid : cfg.id = W := by
      have := List.find?_some hcfg
      simpa using this
    fin_cases hmem <;> subst hid <;>
      first
      | (simp [handleVisualSelection, selectionStep, hsel, hnp, hns, hng,
           staticVisualConfigs, List.find?, applyFilterToVisuals]
         done)
      | exact (hWs rfl).elim
  · intro W hnone
    have hstep : selectionStep rand st W t c v =
        (st, some ⟨t, c, [inlineNormalize rand v]⟩) := by
      simp only [selectionStep, hnone]
      rw [if_neg hnp, if_neg hns, if_neg hng, hcf]
    simp only [handleVisualSelection, hsel, hstep]
    simp only [applyFilterToVisuals]
    rw [if_neg hti]
  · intro hreg
    have hmain : handleVisualSelection rand instances st "salesBySegmentVisual" sel =
        ({ st with selectedCategory := rand salesBySegmentCategories },
         some ⟨"Product", "Product", [rand salesBySegmentCategories]⟩,
         (instances.filter (fun id => id ≠ "salesBySegmentVisual")).map
           (fun id => VisualCall.setFilters id
             [⟨"Product", "Product", [rand salesBySegmentCategories]⟩])) := by
      unfold handleVisualSelection
      rw [hsel]
      rfl
    rw [hmain, filter_ne_of_not_mem instances _ hreg]

/-- Witness for C4 (amended): the static conjunct at `categoryVisual`, the
dynamic conjunct at `dynamic-7`, and the always-random conjunct at
`salesBySegmentVisual`, for a `(Foo, Bar)` selection over the registry
`[category, dynamic-7]`. -/
theorem unhandled_selection_behaviour_witness :
    handleVisualSelection randHead ["category", "dynamic-7"]
        ⟨"All", "All"⟩ "categoryVisual"
        ⟨[⟨[⟨some ⟨some "Foo", some "Bar"⟩, some "Baz"⟩]⟩]⟩ =
      (⟨"All", "All"⟩, none, []) ∧
    handleVisualSelection randHead ["category", "dynamic-7"]
        ⟨"All", "All"⟩ "dynamic-7"
        ⟨[⟨[⟨some ⟨some "Foo", some "Bar"⟩, some "Baz"⟩]⟩]⟩ =
      (⟨"All", "All"⟩, some ⟨"Foo", "Bar", ["Baz"]⟩,
       [VisualCall.setFilters "category" [⟨"Foo", "Bar", ["Baz"]⟩]]) ∧
    handleVisualSelection randHead ["category", "dynamic-7"]
        ⟨"All", "All"⟩ "salesBySegmentVisual"
        ⟨[⟨[⟨some ⟨some "Foo", some "Bar"⟩, some "Baz"⟩]⟩]⟩ =
      (⟨"Barba", "All"⟩, some ⟨"Product", "Product", ["Barba"]⟩,
       [VisualCall.setFilters "category" [⟨"Product", "Product", ["Barba"]⟩],
        VisualCall.setFilters "dynamic-7" [⟨"Product", "Product", ["Barba"]⟩]]) := by
  have h := unhandled_selection_behaviour randHead ["category", "dynamic-7"]
    ⟨"All", "All"⟩ ⟨[⟨[⟨some ⟨some "Foo", some "Bar"⟩, some "Baz"⟩]⟩]⟩
    "Foo" "Bar" "Baz" rfl (by decide) (by decide) (by decide) (by decide)
  exact ⟨h.1 "categoryVisual" rfl (by decide), h.2.1 "dynamic-7" rfl,
    h.2.2 (by decide)⟩

/-! ## Slot vocabulary invariant (C2) -/

/-- The claimed invariant: a concrete (non-`All`) slot value belongs to the
static option vocabulary of its dropdown. -/
def SlotInv (st : SharedState) : Prop :=
  (st.selectedCategory ≠ "All" → st.selectedCategory ∈ storeVocab) ∧
    (st.selectedStore ≠ "All" → st.selectedStore ∈ segmentVocab)

/-- C2 counterexample: a selection event carrying the out-of-vocabulary
value `Zebra` on `(Store, Store)` writes `Zebra` into the category slot,
so the slot holds a concrete value outside its option set. -/
theorem vocab_invariant_counterexample :
    (handleVisualSelection randHead ["category", "dynamic-7"]
        ⟨"All", "All"⟩ "dynamic-7" (storeStoreEvent "Zebra")).1.selectedCategory
        = "Zebra" ∧
      ("Zebra" : String) ≠ "All" ∧ "Zebra" ∉ storeVocab :=
  ⟨rfl, by decide, by decide⟩

/-- C2 (amended): the vocabulary invariant is preserved by `clearAll`, by
every selection-clear, by the always-random write (unconditionally: its
categories are all in the Store vocabulary, whatever the event carries),
and by selection writes whose normalised value lies in the written slot's
vocabulary; an out-of-vocabulary selection value from any other source,
however, is written to the slot unchanged. -/
theorem vocab_invariant_amended
    (rand : List String → String) (hrand : RandValid rand)
    (instances : List String) (st : SharedState) (hst : SlotInv st) :
    SlotInv (resetAllFilters instances st).1 ∧
    (∀ src, SlotInv (clearCrossFilters instances st src).1) ∧
    (∀ sel t c v, extractEvent sel = some (t, c, v) →
      SlotInv (handleVisualSelection rand instances st
        "salesBySegmentVisual" sel).1) ∧
    (∀ src sel t c v, extractEvent sel = some (t, c, v) →
      (t = "Product" ∧ c = "Product" → getStandardizedValue rand v ∈ storeVocab) →
      (t = "Store" ∧ c = "Store" → getStandardizedValue rand v ∈ storeVocab) →
      (t = "Product" ∧ c = "Segment" → getStandardizedValue rand v ∈ segmentVocab) →
      SlotInv (handleVisualSelection rand instances st src sel).1) := by
  refine ⟨⟨fun h => absurd rfl h, fun h => absurd rfl h⟩, ?_, ?_, ?_⟩
  · intro src
    rcases hfind : staticVisualConfigs.find? (fun cfg => cfg.id = src) with _ | cfg
    · simpa [clearCrossFilters, hfind] using hst
    · simp only [clearCrossFilters, hfind]
      split_ifs with hA hB
      · exact ⟨fun h => absurd rfl h, hst.2⟩
      · exact ⟨hst.1, fun h => absurd rfl h⟩
      · exact hst
  · intro sel t c v hsel
    have hred : (handleVisualSelection rand instances st
        "salesBySegmentVisual" sel).1 =
        (selectionStep rand st "salesBySegmentVisual" t c v).1 := by
      simp [handleVisualSelection, hsel]
    rw [hred]
    have hs : (selectionStep rand st "salesBySegmentVisual" t c v).1 =
        SharedState.mk (rand salesBySegmentCategories) st.selectedStore := rfl
    rw [hs]
    have hsub : ∀ x ∈ salesBySegmentCategories, x ∈ storeVocab := by decide
    exact ⟨fun _ => hsub _ (hrand salesBySegmentCategories (by decide)), hst.2⟩
  · intro src sel t c v hsel hPP hSS hPSeg
    have hred : (handleVisualSelection rand instances st src sel).1 =
        (selectionStep rand st src t c v).1 := by
      simp [handleVisualSelection, hsel]
    rw [hred]
    rcases hfind : staticVisualConfigs.find? (fun cfg => cfg.id = src) with _ | cfg
    · by_cases h1 : t = "Product" ∧ c = "Product"
      · have hs : (selectionStep rand st src t c v).1 =
            SharedState.mk (getStandardizedValue rand v) st.selectedStore := by
          simp only [selectionStep, hfind, if_pos h1, inlineNormalize_eq_standardized]
        rw [hs]
        exact ⟨fun _ => hPP h1, hst.2⟩
      by_cases h2 : t = "Store" ∧ c = "Store"
      · have hs : (selectionStep rand st src t c v).1 =
            SharedState.mk (getStandardizedValue rand v) st.selectedStore := by
          simp only [selectionStep, hfind, if_neg h1, if_pos h2,
            inlineNormalize_eq_standardized]
        rw [hs]
        exact ⟨fun _ => hSS h2, hst.2⟩
      by_cases h3 : t = "Product" ∧ c = "Segment"
      · have hs : (selectionStep rand st src t c v).1 =
            SharedState.mk st.selectedCategory (getStandardizedValue rand v) := by
          simp only [selectionStep, hfind, if_neg h1, if_neg h2, if_pos h3,
            inlineNormalize_eq_standardized]
        rw [hs]
        exact ⟨hst.1, fun _ => hPSeg h3⟩
      · have hs : (selectionStep rand st src t c v).1 = st := by
          simp only [selectionStep, hfind, if_neg h1, if_neg h2, if_neg h3]
        rw [hs]
        exact hst
    · by_cases hkey : cfg.key = "salesBySegment"
      · have hs : (selectionStep rand st src t c v).1 =
            SharedState.mk (rand salesBySegmentCategories) st.selectedStore := by
          simp only [selectionStep, hfind, if_pos hkey]
        rw [hs]
        have hsub : ∀ x ∈ salesBySegmentCategories, x ∈ storeVocab := by decide
        exact ⟨fun _ => hsub _ (hrand salesBySegmentCategories (by decide)), hst.2⟩
      by_cases h1 : t = "Product" ∧ c = "Product"
      · have hs : (selectionStep rand st src t c v).1 =
            SharedState.mk (getStandardizedValue rand v) st.selectedStore := by
          simp only [selectionStep, hfind, if_neg hkey, if_pos h1,
            standardized_inline rand hrand v]
        rw [hs]
        exact ⟨fun _ => hPP h1, hst.2⟩
      by_cases h2 : t = "Store" ∧ c = "Store"
      · have hs : (selectionStep rand st src t c v).1 =
            SharedState.mk (getStandardizedValue rand v) st.selectedStore := by
          simp only [selectionStep, hfind, if_neg hkey, if_neg h1, if_pos h2,
            standardized_inline rand hrand v]
        rw [hs]
        exact ⟨fun _ => hSS h2, hst.2⟩
      by_cases h3 : t = "Product" ∧ c = "Segment"
      · have hs : (selectionStep rand st src t c v).1 =
            SharedState.mk st.selectedCategory (getStandardizedValue rand v) := by
          simp only [selectionStep, hfind, if_neg hkey, if_neg h1, if_neg h2,
            if_pos h3, standardized_inline rand hrand v]
        rw [hs]
        exact ⟨hst.1, fun _ => hPSeg h3⟩
      · have hs : (selectionStep rand st src t c v).1 = st := by
          simp only [selectionStep, hfind, if_neg hkey, if_neg h1, if_neg h2,
            if_neg h3]
        rw [hs]
        exact hst

/-- Witness for C2 (amended): a vocabulary value arriving from a dynamic
widget, and an out-of-vocabulary value arriving at the always-random
widget (whose write stays in the vocabulary regardless). -/
theorem vocab_invariant_amended_witness :
    SlotInv (handleVisualSelection randHead ["category"]
        ⟨"All", "All"⟩ "dynamic-7" (storeStoreEvent "Abbas")).1 ∧
      SlotInv (handleVisualSelection randHead ["category"]
        ⟨"All", "All"⟩ "salesBySegmentVisual" (storeStoreEvent "Zebra")).1 :=
  ⟨(vocab_invariant_amended randHead randHead_valid ["category"]
      ⟨"All", "All"⟩ ⟨fun h => absurd rfl h, fun h => absurd rfl h⟩).2.2.2
    "dynamic-7" (storeStoreEvent "Abbas") "Store" "Store" "Abbas" rfl
    (by decide) (by decide) (by decide),
   (vocab_invariant_amended randHead randHead_valid ["category"]
      ⟨"All", "All"⟩ ⟨fun h => absurd rfl h, fun h => absurd rfl h⟩).2.2.1
    (storeStoreEvent "Zebra") "Store" "Store" "Zebra" rfl⟩

/-! ## Reorder round trip (C10) -/

/-- An absent id has no index. -/
theorem findIndexOf_eq_none (l : List String) (x : String) (h : x ∉ l) :
    findIndexOf l x = none := by
  induction l with
  | nil => rfl
  | cons a as ih =>
    have hax : ¬(a = x) := fun hh => h (hh ▸ List.mem_cons_self a as)
    simp [findIndexOf, hax, ih (fun hh => h (List.mem_cons_of_mem a hh))]

/-- A present id has an in-range index pointing at it. -/
theorem findIndexOf_mem (l : List String) (x : String) (h : x ∈ l) :
    ∃ i, findIndexOf l x = some i ∧ i < l.length ∧ l.getD i "" = x := by
  induction l with
  | nil => cases h
  | cons a as ih =>
    by_cases hax : a = x
    · exact ⟨0, by simp [findIndexOf, hax], Nat.succ_pos _, by simp [hax]⟩
    · have hx : x ∈ as := by
        rcases List.mem_cons.mp h with h' | h'
        · exact absurd h'.symm hax
        · exact h'
      obtain ⟨i, hf, hlt, hg⟩ := ih hx
      refine ⟨i + 1, by simp [findIndexOf, hax, hf], ?_, ?_⟩
      · simpa [Nat.succ_lt_succ_iff] using hlt
      · simpa [List.getD_cons_succ] using hg

/-- In a duplicate-free list, the element at a position is found exactly
there. -/
theorem findIndexOf_of_getD (l : List String) (x : String) (i : Nat)
    (hnd : l.Nodup) (hi : i < l.length) (hg : l.getD i "" = x) :
    findIndexOf l x = some i := by
  induction l generalizing i with
  | nil => simp at hi
  | cons a as ih =>
    obtain ⟨hna, hnd'⟩ := List.nodup_cons.mp hnd
    cases i with
    | zero =>
      simp only [List.getD_cons_zero] at hg
      simp [findIndexOf, hg]
    | succ n =>
      simp only [List.getD_cons_succ] at hg
      have hn : n < as.length := by simpa [Nat.succ_lt_succ_iff] using hi
      have hx : x ∈ as := by
        rw [← hg, List.getD_eq_getElem as "" hn]
        exact List.getElem_mem hn
      have hax : ¬(a = x) := fun hh => hna (hh ▸ hx)
      simp [findIndexOf, hax, ih n hnd' hn hg]

/-- A fresh element inserted at `j` is found at `j`. -/
theorem findIndexOf_insertIdx (x : String) :
    ∀ (xs : List String) (j : Nat), x ∉ xs → j ≤ xs.length →
      findIndexOf (xs.insertIdx j x) x = some j
  | [], 0, _, _ => by simp [findIndexOf]
  | [], n + 1, _, hj => by simp at hj
  | a :: as, 0, _, _ => by simp [findIndexOf]
  | a :: as, n + 1, hx, hj => by
    have hxa : ¬(a = x) := fun hh => hx (hh ▸ List.mem_cons_self a as)
    have hx' : x ∉ as := fun hh => hx (List.mem_cons_of_mem a hh)
    have hn : n ≤ as.length := Nat.le_of_succ_le_succ hj
    rw [List.insertIdx_succ_cons]
    simp only [findIndexOf, if_neg hxa, findIndexOf_insertIdx x as n hx' hn,
      Option.map_some']

/-- Inserting a fresh element keeps a list duplicate-free. -/
theorem nodup_insertIdx (x : String) :
    ∀ (xs : List String) (j : Nat), x ∉ xs → xs.Nodup → j ≤ xs.length →
      (xs.insertIdx j x).Nodup
  | xs, 0, hx, hnd, _ => by simpa [List.nodup_cons] using ⟨hx, hnd⟩
  | [], n + 1, _, _, hj => by simp at hj
  | a :: as, n + 1, hx, hnd, hj => by
    obtain ⟨hna, hnd'⟩ := List.nodup_cons.mp hnd
    have hx' : x ∉ as := fun hh => hx (List.mem_cons_of_mem a hh)
    have hn : n ≤ as.length := Nat.le_of_succ_le_succ hj
    rw [List.insertIdx_succ_cons, List.nodup_cons]
    refine ⟨?_, nodup_insertIdx x as n hx' hnd' hn⟩
    rw [List.mem_insertIdx hn]
    rintro (h | h)
    · exact hx (h ▸ List.mem_cons_self a as)
    · exact hna h

/-- Away from the insertion point, the inserted list's entries come from
the original list. -/
theorem getD_insertIdx_mem (x : String) (xs : List String) (j i : Nat)
    (hj : j ≤ xs.length) (hi : i < (xs.insertIdx j x).length) (hne : i ≠ j) :
    (xs.insertIdx j x).getD i "" ∈ xs := by
  have hlen : (xs.insertIdx j x).length = xs.length + 1 :=
    List.length_insertIdx j xs hj
  rcases Nat.lt_or_ge i j with hij | hij
  · have hi' : i < xs.length := Nat.lt_of_lt_of_le hij hj
    rw [List.getD_eq_getElem _ "" hi, List.getElem_insertIdx_of_lt xs x j i hij hi']
    exact List.getElem_mem hi'
  · obtain ⟨k, rfl⟩ : ∃ k, i = j + k + 1 := ⟨i - j - 1, by omega⟩
    have hk : j + k < xs.length := by omega
    rw [List.getD_eq_getElem _ "" hi, List.getElem_insertIdx_add_succ xs x j k hk]
    exact List.getElem_mem hk

/-- In a duplicate-free list, the element at `i` is gone after erasing
position `i`. -/
theorem not_mem_eraseIdx :
    ∀ (l : List String) (i : Nat), l.Nodup → i < l.length →
      l.getD i "" ∉ l.eraseIdx i
  | [], i, _, hi => by simp at hi
  | a :: as, 0, hnd, _ => by
    simpa [List.getD_cons_zero, List.eraseIdx_cons_zero] using
      (List.nodup_cons.mp hnd).1
  | a :: as, n + 1, hnd, hi => by
    obtain ⟨hna, hnd'⟩ := List.nodup_cons.mp hnd
    have hn : n < as.length := by simpa [Nat.succ_lt_succ_iff] using hi
    simp only [List.getD_cons_succ, List.eraseIdx_cons_succ, List.mem_cons]
    rintro (h | h)
    · apply hna
      rw [← h, List.getD_eq_getElem as "" hn]
      exact List.getElem_mem hn
    · exact not_mem_eraseIdx as n hnd' hn h

/-- Removing an element and re-inserting it at its old position restores
the list. -/
theorem insertIdx_getD_eraseIdx :
    ∀ (l : List String) (i : Nat), i < l.length →
      (l.eraseIdx i).insertIdx i (l.getD i "") = l
  | [], i, hi => by simp at hi
  | a :: as, 0, _ => by simp
  | a :: as, n + 1, hi => by
    simp only [List.getD_cons_succ, List.eraseIdx_cons_succ, List.insertIdx_succ_cons,
      List.cons.injEq, true_and]
    exact insertIdx_getD_eraseIdx as n (by simpa [Nat.succ_lt_succ_iff] using hi)

/-- Moving index `i` to `j` and then `j` back to `i` restores the list. -/
theorem arrayMove_arrayMove (l : List String) (i j : Nat)
    (hi : i < l.length) (hj : j < l.length) :
    arrayMove (arrayMove l i j) j i = l := by
  unfold arrayMove
  have hlen : (l.eraseIdx i).length = l.length - 1 := by
    rw [List.length_eraseIdx, if_pos hi]
  have hj' : j ≤ (l.eraseIdx i).length := by omega
  have hm : ((l.eraseIdx i).insertIdx j (l.getD i "")).getD j "" = l.getD i "" := by
    rw [List.getD_eq_getElem _ ""
        (by rw [List.length_insertIdx j _ hj']; omega),
      List.getElem_insertIdx_self (l.eraseIdx i) (l.getD i "") j hj']
  rw [hm, List.eraseIdx_insertIdx, insertIdx_getD_eraseIdx l i hi]

/-- C10: `reorder` is a no-op when the two ids coincide or either is absent
from the Order List; and for a duplicate-free Order List containing distinct
ids `A` and `B`, moving `A` to the position of `B` and then moving it back —
to the id now occupying `A`'s original position — restores the original
sequence. -/
theorem reorder_noop_and_roundtrip (items : List String) (reports : List Report)
    (A B : String) :
    ((A = B ∨ A ∉ items ∨ B ∉ items) → (handleDragEnd items reports A B).1 = items) ∧
    (items.Nodup → A ∈ items → B ∈ items → A ≠ B →
      (handleDragEnd (handleDragEnd items reports A B).1 reports A
          ((handleDragEnd items reports A B).1.getD
            ((findIndexOf items A).getD 0) "")).1 = items) := by
  constructor
  · rintro (h | h | h)
    · simp [handleDragEnd, h]
    · by_cases hAB : A = B
      · simp [handleDragEnd, hAB]
      · simp [handleDragEnd, hAB, findIndexOf_eq_none items A h]
    · by_cases hAB : A = B
      · simp [handleDragEnd, hAB]
      · rcases hfA : findIndexOf items A with _ | ia
        · simp [handleDragEnd, hAB, hfA]
        · simp [handleDragEnd, hAB, hfA, findIndexOf_eq_none items B h]
  · intro hnd hA hB hAB
    obtain ⟨i, hfA, hiA, hgA⟩ := findIndexOf_mem items A hA
    obtain ⟨j, hfB, hjB, hgB⟩ := findIndexOf_mem items B hB
    have hij : i ≠ j := fun h => hAB (by rw [← hgA, h, hgB])
    have h1 : (handleDragEnd items reports A B).1 = arrayMove items i j := by
      simp [handleDragEnd, hAB, hfA, hfB]
    have hlen : (items.eraseIdx i).length = items.length - 1 := by
      rw [List.length_eraseIdx, if_pos hiA]
    have hj' : j ≤ (items.eraseIdx i).length := by omega
    have hmdef : arrayMove items i j = (items.eraseIdx i).insertIdx j A := by
      rw [arrayMove, hgA]
    have hxsnd : (items.eraseIdx i).Nodup :=
      hnd.sublist (List.eraseIdx_sublist items i)
    have hxA : A ∉ items.eraseIdx i := hgA ▸ not_mem_eraseIdx items i hnd hiA
    have hmlen : (arrayMove items i j).length = items.length := by
      rw [hmdef, List.length_insertIdx j _ hj']
      omega
    have hfA' : findIndexOf (arrayMove items i j) A = some j := by
      rw [hmdef]
      exact findIndexOf_insertIdx A (items.eraseIdx i) j hxA hj'
    have hCmem : (arrayMove items i j).getD i "" ∈ items.eraseIdx i := by
      rw [hmdef]
      exact getD_insertIdx_mem A (items.eraseIdx i) j i hj'
        (by rw [← hmdef, hmlen]; exact hiA) hij
    have hCA : (arrayMove items i j).getD i "" ≠ A := fun h => hxA (h ▸ hCmem)
    have hmnd : (arrayMove items i j).Nodup := by
      rw [hmdef]
      exact nodup_insertIdx A (items.eraseIdx i) j hxA hxsnd hj'
    have hfC : findIndexOf (arrayMove items i j)
        ((arrayMove items i j).getD i "") = some i :=
      findIndexOf_of_getD _ _ i hmnd (by rw [hmlen]; exact hiA) rfl
    rw [h1, hfA, Option.getD_some]
    have hAC : ¬(A = (arrayMove items i j).getD i "") := fun h => hCA h.symm
    simp only [handleDragEnd, if_neg hAC, hfA', hfC]
    exact arrayMove_arrayMove items i j hiA hjB

/-- Witness for C10 at a concrete four-element order. -/
theorem reorder_noop_and_roundtrip_witness :
    (handleDragEnd DEFAULT_VISUAL_ORDER [] "categoryVisual" "categoryVisual").1
        = DEFAULT_VISUAL_ORDER ∧
      (handleDragEnd (handleDragEnd DEFAULT_VISUAL_ORDER [] "categoryVisual"
            "salesByStoreVisual").1 []
          "categoryVisual"
          ((handleDragEnd DEFAULT_VISUAL_ORDER [] "categoryVisual"
              "salesByStoreVisual").1.getD
            ((findIndexOf DEFAULT_VISUAL_ORDER "categoryVisual").getD 0) "")).1
        = DEFAULT_VISUAL_ORDER :=
  ⟨(reorder_noop_and_roundtrip DEFAULT_VISUAL_ORDER [] "categoryVisual"
      "categoryVisual").1 (Or.inl rfl),
   (reorder_noop_and_roundtrip DEFAULT_VISUAL_ORDER [] "categoryVisual"
      "salesByStoreVisual").2 (by decide) (by decide) (by decide) (by decide)⟩

/-! ## Persistence scheduling (C8) -/

/-- C8 counterexample: adding a new report mutates the Order List but sends
its save request immediately through `saveDashboardConfig`, not through the
debouncing bridge — the emitted request's kind is `immediate`, not
`scheduled`. -/
theorem saveScheduling_claim_counterexample :
    (handleAddReports [] DEFAULT_VISUAL_ORDER [⟨"5", "Revenue Trends"⟩]).2.2 =
      some { kind := SaveKind.immediate,
             order := DEFAULT_VISUAL_ORDER ++ ["dynamic-5"],
             reports := [⟨"5", "Revenue Trends"⟩] } ∧
      SaveKind.immediate ≠ SaveKind.scheduled :=
  ⟨rfl, by decide⟩

/-- C8 (amended): a drag-reorder that changes the Order List emits exactly
one save request, scheduled through the debouncer and carrying the new
order and the current reports; and the debouncer collapses any burst of
calls whose consecutive gaps are below the quiet period into a single
outbound request at `lastCallTime + wait`, carrying the last call's
arguments.  Appends of newly chosen widgets, by contrast, save
immediately (see the counterexample). -/
theorem saveScheduling_amended :
    (∀ (items : List String) (reports : List Report) (A B : String)
        (newOrder : List String) (req : SaveReq),
        handleDragEnd items reports A B = (newOrder, some req) →
        req.kind = SaveKind.scheduled ∧ req.order = newOrder ∧
          req.reports = reports) ∧
    (∀ (α : Type) (wait : Nat) (c : Nat × α) (cs : List (Nat × α)),
        List.Chain' (fun a b => b.1 < a.1 + wait) (c :: cs) →
        debounce wait (c :: cs) =
          [(((c :: cs).getLastD c).1 + wait, ((c :: cs).getLastD c).2)]) := by
  constructor
  · intro items reports A B newOrder req h
    by_cases hAB : A = B
    · simp [handleDragEnd, hAB] at h
    · simp only [handleDragEnd, if_neg hAB] at h
      rcases hfa : findIndexOf items A with _ | ia <;>
        rcases hfb : findIndexOf items B with _ | ib <;>
        rw [hfa, hfb] at h <;> simp only [Prod.mk.injEq] at h
      · exact absurd h.2 (by simp)
      · exact absurd h.2 (by simp)
      · exact absurd h.2 (by simp)
      · obtain ⟨h1, h2⟩ := h
        rw [Option.some.injEq] at h2
        subst h2
        exact ⟨rfl, h1, rfl⟩
  · intro α wait c cs
    induction cs generalizing c with
    | nil =>
      intro _
      obtain ⟨t, a⟩ := c
      simp [debounce, List.getLastD_cons, List.getLastD_nil]
    | cons c' cs' ih =>
      intro hchain
      obtain ⟨t, a⟩ := c
      obtain ⟨t', a'⟩ := c'
      rw [List.chain'_cons] at hchain
      obtain ⟨hlt, hchain'⟩ := hchain
      have hstep : debounce wait ((t, a) :: (t', a') :: cs') =
          debounce wait ((t', a') :: cs') := by
        simp only [debounce, if_pos hlt]
      have e1 : ((t, a) :: (t', a') :: cs').getLastD (t, a) =
          ((t', a') :: cs').getLastD (t', a') := by
        simp only [List.getLastD_cons]
      rw [hstep, ih (t', a') hchain', e1]

/-- Witness for C8 (amended): a concrete drag plus a concrete three-call
burst inside the 1000 ms quiet window. -/
theorem saveScheduling_amended_witness :
    ((handleDragEnd DEFAULT_VISUAL_ORDER [] "categoryVisual" "storeVisual").2.map
        SaveReq.kind = some SaveKind.scheduled) ∧
      debounce debounceWait [(0, "a"), (200, "b"), (900, "c")] =
        [(900 + debounceWait, "c")] := by
  constructor
  · have h := saveScheduling_amended.1 DEFAULT_VISUAL_ORDER [] "categoryVisual"
      "storeVisual"
      (arrayMove DEFAULT_VISUAL_ORDER 0 1)
      { kind := SaveKind.scheduled, order := arrayMove DEFAULT_VISUAL_ORDER 0 1,
        reports := [] } rfl
    rw [show (handleDragEnd DEFAULT_VISUAL_ORDER [] "categoryVisual"
          "storeVisual").2 =
        some { kind := SaveKind.scheduled,
               order := arrayMove DEFAULT_VISUAL_ORDER 0 1,
               reports := [] } from rfl,
      Option.map_some', h.1]
  · exact saveScheduling_amended.2 String debounceWait (0, "a") [(200, "b"), (900, "c")]
      (by norm_num [List.chain'_cons, debounceWait])

/-! ## Readiness (C9) -/

/-- C9 counterexample: with loading finished, Order List
`[categoryVisual, dynamic-5]`, no selected reports, all static visuals
rendered and no dynamic visual rendered, the code reports ready even
though the ordered widget `dynamic-5` has never rendered — the claimed
"false whenever any widget in the Order List has not rendered" fails. -/
theorem visualsLoaded_claim_counterexample :
    visualsLoadedComputed false ["categoryVisual", "dynamic-5"] []
        (fun _ => true) (fun _ => false) = true ∧
      claimReadiness false ["categoryVisual", "dynamic-5"]
        (fun _ => true) (fun _ => false) = false :=
  ⟨rfl, rfl⟩

/-- C9 (amended): the readiness signal is true iff configuration loading
has finished, every static widget whose id is in the Order List has
rendered, and every widget of the selected dynamic reports list has
rendered; dynamic ids that sit in the Order List without a matching
selected report are not consulted. -/
theorem visualsLoaded_amended_iff (isLoadingConfig : Bool)
    (visualOrder : List String) (selectedReports : List Report)
    (visualRendered dynamicVisualsRendered : String → Bool) :
    visualsLoadedComputed isLoadingConfig visualOrder selectedReports
        visualRendered dynamicVisualsRendered = true ↔
      (isLoadingConfig = false ∧
        (∀ cfg ∈ staticVisualConfigs, cfg.id ∈ visualOrder →
          visualRendered cfg.key = true) ∧
        (∀ r ∈ selectedReports,
          dynamicVisualsRendered (getDynamicVisualId r.id) = true)) := by
  cases isLoadingConfig with
  | true => simp [visualsLoadedComputed]
  | false =>
    simp only [visualsLoadedComputed, if_neg (by simp : ¬(false = true))]
    rw [Bool.and_eq_true, Bool.or_eq_true, Bool.or_eq_true]
    constructor
    · rintro ⟨hs, hd⟩
      refine ⟨by simp, ?_, ?_⟩
      · intro cfg hcfg hord
        rcases hs with hs | hs
        · rw [List.isEmpty_iff] at hs
          have : cfg ∈ staticVisualConfigs.filter
              (fun cfg => visualOrder.contains cfg.id) :=
            List.mem_filter.mpr ⟨hcfg, by simp [List.contains, List.elem_iff, hord]⟩
          rw [hs] at this
          cases this
        · exact List.all_eq_true.mp hs cfg
            (List.mem_filter.mpr ⟨hcfg, by simp [List.contains, List.elem_iff, hord]⟩)
      · intro r hr
        rcases hd with hd | hd
        · rw [List.isEmpty_iff] at hd
          rw [hd] at hr
          cases hr
        · exact List.all_eq_true.mp hd r hr
    · rintro ⟨-, hs, hd⟩
      constructor
      · right
        rw [List.all_eq_true]
        intro cfg hcfg
        obtain ⟨hmem, hcont⟩ := List.mem_filter.mp hcfg
        exact hs cfg hmem (by simpa [List.contains, List.elem_iff] using hcont)
      · right
        rw [List.all_eq_true]
        intro r hr
        exact hd r hr

end PowerBIDashboard
